import Mathlib

/-!
Verification of the image-converter repository's concurrent batch conversion
pipeline against its natural-language specification.

The Go source is shallowly embedded: pure control flow becomes Lean
functions, external effects (file system, network, codecs) become explicit
scenario/environment records whose boolean and integer fields record the
outcome of each external call, and shared-state concurrency becomes an
explicit interleaving semantics.  Machine integers are modelled as `Int`
(Go `int`/`int64`/`time.Duration`) or `Nat` (counters that are only ever
incremented); Go `float64` arithmetic on backoff factors is modelled over
`ℚ` with truncation, which agrees exactly with the source for the magnitudes
involved (all durations stay far below 2^53 ns).
-/

/- ===================================================================
   Section 1: retry executor (internal/remote/operations.go)
   =================================================================== -/

/-- Embeds `retryConfig` from internal/remote/operations.go.
`InitialWait`/`MaxWait` are Go `time.Duration` values in nanoseconds,
modelled as `Int`; `Factor` is a Go `float64`, modelled as `ℚ`. -/
structure RetryConfig where
  maxRetries : Int
  initialWait : Int
  maxWait : Int
  factor : ℚ
deriving Repr, DecidableEq

/-- Embeds `newDefaultRetryConfig`: 3 retries, 2s initial wait,
30s max wait, factor 2.0. -/
def newDefaultRetryConfig : RetryConfig :=
  { maxRetries := 3
    initialWait := 2 * 1000000000
    maxWait := 30 * 1000000000
    factor := 2 }

/-- Embeds the backoff update in `withRetry`:
`wait = time.Duration(float64(wait) * config.Factor);
 if wait > config.MaxWait { wait = config.MaxWait }`. -/
def nextWait (cfg : RetryConfig) (wait : Int) : Int :=
  let w : Int := ⌊(wait : ℚ) * cfg.factor⌋
  if w > cfg.maxWait then cfg.maxWait else w

/-- The backoff wait used before the (n+1)-st retry: `initialWait`
multiplied `n` times by the factor with the cap applied each step. -/
def waitSeq (cfg : RetryConfig) (n : Nat) : Int :=
  (nextWait cfg)^[n] cfg.initialWait

/-- Result of `withRetry`: either `nil` (success, or the vacuous fall-through
when the loop body never runs) or the final wrapped error, which records the
configured retry count and the last underlying error. -/
inductive RetryResult where
  | ok : RetryResult
  | failed (reportedRetries : Int) (lastErr : String) : RetryResult
deriving Repr, DecidableEq

/-- Loop body of `withRetry`.  `fn k` is the outcome of the k-th invocation
of the operation closure (`none` = success).  `remaining` counts the loop
iterations still permitted by `attempt <= config.MaxRetries+1`; the branch
`remaining = 0` inside the body corresponds to the source's
`attempt > config.MaxRetries` final-attempt check.  Returns the result, the
number of times the operation was executed, and the list of slept backoff
durations in order. -/
def withRetryAux (fn : Nat → Option String) (cfg : RetryConfig) :
    Nat → Nat → Int → RetryResult × Nat × List Int
  | attempt, 0, _ => (.ok, attempt - 1, [])
  | attempt, remaining + 1, wait =>
    match fn attempt with
    | none => (.ok, attempt, [])
    | some e =>
      if remaining = 0 then
        (.failed cfg.maxRetries e, attempt, [])
      else
        let r := withRetryAux fn cfg (attempt + 1) remaining (nextWait cfg wait)
        (r.1, r.2.1, wait :: r.2.2)

/-- Embeds `withRetry` from internal/remote/operations.go: run the operation
for attempts `1 .. maxRetries+1`, sleeping the current backoff between failed
attempts. -/
def withRetry (fn : Nat → Option String) (cfg : RetryConfig) :
    RetryResult × Nat × List Int :=
  withRetryAux fn cfg 1 (cfg.maxRetries + 1).toNat cfg.initialWait

lemma withRetryAux_succ_eq (fn : Nat → Option String) (cfg : RetryConfig)
    (attempt k : Nat) (wait : Int) :
    withRetryAux fn cfg attempt (k + 1) wait =
      match fn attempt with
      | none => (.ok, attempt, [])
      | some e =>
        if k = 0 then
          (.failed cfg.maxRetries e, attempt, [])
        else
          let r := withRetryAux fn cfg (attempt + 1) k (nextWait cfg wait)
          (r.1, r.2.1, wait :: r.2.2) := rfl

lemma withRetryAux_spec (fn : Nat → Option String) (cfg : RetryConfig) :
    ∀ (remaining attempt : Nat) (wait : Int)
      (res : RetryResult) (execs : Nat) (sleeps : List Int), 1 ≤ attempt →
      withRetryAux fn cfg attempt (remaining + 1) wait = (res, execs, sleeps) →
      attempt ≤ execs ∧ execs ≤ attempt + remaining ∧
      (res = .ok →
        fn execs = none ∧ ∀ j, attempt ≤ j → j < execs → fn j ≠ none) ∧
      (∀ r e, res = .failed r e →
        r = cfg.maxRetries ∧ execs = attempt + remaining ∧
        fn execs = some e ∧
        ∀ j, attempt ≤ j → j ≤ execs → fn j ≠ none) ∧
      sleeps = (List.range (execs - attempt)).map
        (fun i => (nextWait cfg)^[i] wait) := by
  intro remaining
  induction remaining with
  | zero =>
    intro attempt wait res execs sleeps _h heq
    rw [withRetryAux_succ_eq] at heq
    cases hfn : fn attempt with
    | none =>
      rw [hfn] at heq
      cases heq
      refine ⟨le_refl _, by omega, fun _ => ⟨hfn, fun j hj1 hj2 => by omega⟩,
        ?_, by simp⟩
      intro r e hre
      simp at hre
    | some e =>
      rw [hfn] at heq
      cases heq
      refine ⟨le_refl _, by omega, ?_, ?_, by simp⟩
      · intro hok
        simp at hok
      · intro r e' hre
        obtain ⟨hr, he⟩ := RetryResult.failed.inj hre
        subst hr; subst he
        refine ⟨rfl, by omega, hfn, ?_⟩
        intro j hj1 hj2
        have : j = attempt := by omega
        subst this
        simp [hfn]
  | succ rem ih =>
    intro attempt wait res execs sleeps h heq
    rw [withRetryAux_succ_eq] at heq
    cases hfn : fn attempt with
    | none =>
      rw [hfn] at heq
      cases heq
      refine ⟨le_refl _, by omega, fun _ => ⟨hfn, fun j hj1 hj2 => by omega⟩,
        ?_, by simp⟩
      intro r e hre
      simp at hre
    | some e =>
      rw [hfn] at heq
      cases heq
      have ihx := ih (attempt + 1) (nextWait cfg wait)
        (withRetryAux fn cfg (attempt + 1) (rem + 1) (nextWait cfg wait)).1
        (withRetryAux fn cfg (attempt + 1) (rem + 1) (nextWait cfg wait)).2.1
        (withRetryAux fn cfg (attempt + 1) (rem + 1) (nextWait cfg wait)).2.2
        (by omega) rfl
      obtain ⟨ih1, ih2, ih3, ih4, ih5⟩ := ihx
      refine ⟨by omega, by omega, ?_, ?_, ?_⟩
      · intro hok
        have hx := ih3 hok
        refine ⟨hx.1, ?_⟩
        intro j hj1 hj2
        rcases Nat.lt_or_ge j (attempt + 1) with hlt | hge
        · have : j = attempt := by omega
          subst this
          simp [hfn]
        · exact hx.2 j hge hj2
      · intro r e' hre
        have hx := ih4 r e' hre
        refine ⟨hx.1, by omega, hx.2.2.1, ?_⟩
        intro j hj1 hj2
        rcases Nat.lt_or_ge j (attempt + 1) with hlt | hge
        · have : j = attempt := by omega
          subst this
          simp [hfn]
        · exact hx.2.2.2 j hge hj2
      · have hlen : (withRetryAux fn cfg (attempt + 1) (rem + 1)
            (nextWait cfg wait)).2.1 - attempt
            = ((withRetryAux fn cfg (attempt + 1) (rem + 1)
                (nextWait cfg wait)).2.1 - (attempt + 1)) + 1 := by omega
        rw [ih5, hlen, List.range_succ_eq_map]
        simp only [List.map_cons, List.map_map, Function.iterate_zero,
          id_eq, List.cons.injEq]
        refine ⟨by simp, ?_⟩
        apply List.map_congr_left
        intro i _
        simp [Function.comp, Function.iterate_succ_apply]

/-- Concrete evaluation: the default policy against an always-failing
operation performs 4 attempts, sleeps 2s, 4s, 8s, and reports 3 retries
wrapping the last error. -/
lemma withRetry_default_allFail_eval :
    withRetry (fun _ => some "boom") newDefaultRetryConfig
      = (.failed 3 "boom", 4, [2000000000, 4000000000, 8000000000]) := by
  norm_num [withRetry, withRetryAux, nextWait, newDefaultRetryConfig,
    Int.toNat]

/-- C1: `withRetry` executes the operation at most `maxRetries+1` times,
returns nil as soon as an attempt succeeds (all earlier attempts having
failed), sleeps between failed attempts a backoff that starts at
`InitialWait`, is multiplied by `Factor` after every failed attempt and
capped at `MaxWait`, and on final failure returns an error wrapping the
last underlying error and reporting the exhausted retry count; the default
policy is 3 retries, 2s initial backoff, 30s cap, factor 2.0. -/
theorem C1_withRetry_contract (fn : Nat → Option String) (cfg : RetryConfig) :
    (withRetry fn cfg).2.1 ≤ (cfg.maxRetries + 1).toNat ∧
    (withRetry fn cfg).2.2 =
      (List.range ((withRetry fn cfg).2.1 - 1)).map (waitSeq cfg) ∧
    waitSeq cfg 0 = cfg.initialWait ∧
    (∀ n, waitSeq cfg (n + 1) =
      min ⌊(waitSeq cfg n : ℚ) * cfg.factor⌋ cfg.maxWait) ∧
    ((withRetry fn cfg).1 = .ok →
      ((cfg.maxRetries + 1).toNat = 0 ∧ (withRetry fn cfg).2.1 = 0) ∨
      (fn ((withRetry fn cfg).2.1) = none ∧
        ∀ j, 1 ≤ j → j < (withRetry fn cfg).2.1 → fn j ≠ none)) ∧
    (∀ r e, (withRetry fn cfg).1 = .failed r e →
      r = cfg.maxRetries ∧
      (withRetry fn cfg).2.1 = (cfg.maxRetries + 1).toNat ∧
      fn ((cfg.maxRetries + 1).toNat) = some e ∧
      ∀ j, 1 ≤ j → j ≤ (cfg.maxRetries + 1).toNat → fn j ≠ none) ∧
    newDefaultRetryConfig
      = ⟨3, 2 * 1000000000, 30 * 1000000000, 2⟩ := by
  have hwait0 : waitSeq cfg 0 = cfg.initialWait := rfl
  have hwaitS : ∀ n, waitSeq cfg (n + 1) =
      min ⌊(waitSeq cfg n : ℚ) * cfg.factor⌋ cfg.maxWait := by
    intro n
    rw [waitSeq, Function.iterate_succ_apply']
    show nextWait cfg ((nextWait cfg)^[n] cfg.initialWait) = _
    rw [nextWait]
    have : (nextWait cfg)^[n] cfg.initialWait = waitSeq cfg n := rfl
    rw [this, Int.min_def]
    split_ifs <;> omega
  cases htot : (cfg.maxRetries + 1).toNat with
  | zero =>
    have hwr : withRetry fn cfg = (.ok, 0, []) := by
      rw [withRetry, htot]
      rfl
    rw [hwr]
    refine ⟨by simp, by simp, hwait0, hwaitS, ?_, ?_, rfl⟩
    · intro _
      exact Or.inl ⟨rfl, rfl⟩
    · intro r e hre
      simp at hre
  | succ t =>
    have hspec := withRetryAux_spec fn cfg t 1 cfg.initialWait
      (withRetry fn cfg).1 (withRetry fn cfg).2.1 (withRetry fn cfg).2.2
      (le_refl 1) (by rw [withRetry, htot])
    obtain ⟨h1, h2, h3, h4, h5⟩ := hspec
    refine ⟨by omega, ?_, hwait0, hwaitS, ?_, ?_, rfl⟩
    · rw [h5]
      rfl
    · intro hok
      exact Or.inr (h3 hok)
    · intro r e hre
      have hx := h4 r e hre
      refine ⟨hx.1, by omega, ?_, ?_⟩
      · have he : (withRetry fn cfg).2.1 = t + 1 := by omega
        rw [← he]
        exact hx.2.2.1
      · intro j hj1 hj2
        exact hx.2.2.2 j hj1 (by omega)

/-- Witness for C1 at a concrete operation and the default policy. -/
theorem C1_withRetry_contract_witness :
    (withRetry (fun _ => some "boom") newDefaultRetryConfig).2.1
      ≤ (newDefaultRetryConfig.maxRetries + 1).toNat :=
  (C1_withRetry_contract (fun _ => some "boom") newDefaultRetryConfig).1

/- ===================================================================
   Section 2: converter (internal/converter/convert.go)
   =================================================================== -/

/-- Embeds `ConversionResult` from internal/converter/convert.go. -/
structure ConversionResult where
  originalPath : String
  webpPath : String
  avifPath : String
  webpAttempted : Bool
  webpSuccess : Bool
  webpSize : Int
  avifAttempted : Bool
  avifSuccess : Bool
  avifSize : Int
deriving Repr, DecidableEq

/-- The Go struct literal `&ConversionResult{OriginalPath: filePath}`:
all other fields take their zero values. -/
def initResult (filePath : String) : ConversionResult :=
  { originalPath := filePath
    webpPath := ""
    avifPath := ""
    webpAttempted := false
    webpSuccess := false
    webpSize := 0
    avifAttempted := false
    avifSuccess := false
    avifSize := 0 }

/-- The configuration fields read by `ImageConverter.Convert`
(`Conversion.WebP.Enabled`, `Conversion.AVIF.Enabled`, `Mode.DryRun`). -/
structure ConvertConfig where
  webpEnabled : Bool
  avifEnabled : Bool
  dryRun : Bool
deriving Repr, DecidableEq

/-- Outcome of the external codec/file-system calls for one output format
inside `Convert`: whether `SaveWebP`/`SaveAVIF` returned an error, whether
the subsequent `os.Stat` of the output file succeeded, the size it
reported, and — consulted for AVIF only — whether
`imageutils.IsValidImage` can re-decode the output. -/
structure EncodeEnv where
  saveErr : Bool
  statOk : Bool
  size : Int
  decodable : Bool
deriving Repr, DecidableEq

/-- The WebP block of `ImageConverter.Convert`: if enabled, record the
output path and the attempt; outside dry-run, call `SaveWebP` and mark
success exactly when the save returned no error and the output file stats
with a size greater than 0. -/
def convertWebPStep (cfg : ConvertConfig) (dir baseFileName : String)
    (env : EncodeEnv) (r0 : ConversionResult) : ConversionResult :=
  if cfg.webpEnabled then
    let r := { r0 with webpPath := dir ++ "/" ++ (baseFileName ++ ".webp")
                       webpAttempted := true }
    if cfg.dryRun = false then
      if env.saveErr then r
      else if env.statOk ∧ env.size > 0 then
        { r with webpSuccess := true, webpSize := env.size }
      else r
    else r
  else r0

/-- The AVIF block of `ImageConverter.Convert`: like the WebP block but,
when the saved output stats non-empty, success additionally requires
`imageutils.IsValidImage`; a non-decodable (but non-empty) output is
removed with `os.Remove`.  The returned `Bool` records that removal — the
only file deletion in `Convert`. -/
def convertAVIFStep (cfg : ConvertConfig) (dir baseFileName : String)
    (env : EncodeEnv) (r1 : ConversionResult) : ConversionResult × Bool :=
  if cfg.avifEnabled then
    let r := { r1 with avifPath := dir ++ "/" ++ (baseFileName ++ ".avif")
                       avifAttempted := true }
    if cfg.dryRun = false then
      if env.saveErr then (r, false)
      else if env.statOk ∧ env.size > 0 then
        if env.decodable then
          ({ r with avifSuccess := true, avifSize := env.size }, false)
        else (r, true)
      else (r, false)
    else (r, false)
  else (r1, false)

/-- Embeds `ImageConverter.Convert`.  `decode` is the outcome of
`loadImage` (open + format dispatch + decode); `dir`/`baseFileName` are the
path components the source computes with `filepath.Dir`/`Base`/`Ext`, and
output paths model `filepath.Join(dir, baseFileName+ext)`.  On a decode
failure the error is returned unchanged; otherwise the WebP block runs,
then the AVIF block, exactly as in the source. -/
def ImageConverter.Convert (cfg : ConvertConfig) (filePath dir baseFileName : String)
    (decode : Except String Unit) (webpEnv avifEnv : EncodeEnv) :
    Except String (ConversionResult × Bool) :=
  match decode with
  | .error e => .error e
  | .ok _ =>
    .ok (convertAVIFStep cfg dir baseFileName avifEnv
      (convertWebPStep cfg dir baseFileName webpEnv (initResult filePath)))

/- ===================================================================
   Section 3: conversion statistics and the two per-file paths
   (internal/config/config.go, internal/local/process.go,
    internal/remote/operations.go)
   =================================================================== -/

/-- Embeds `config.ConversionStats`.  All counters are only ever
incremented; `StartTime` (a wall-clock timestamp) is outside the
embedding. -/
structure ConversionStats where
  totalProcessed : Nat
  downloadFailed : Nat
  convertFailed : Nat
  webpSuccess : Nat
  webpFailed : Nat
  avifSuccess : Nat
  avifFailed : Nat
  uploadedFiles : Nat
  skippedUploads : Nat
deriving Repr, DecidableEq

/-- Embeds `config.NewConversionStats` (all counters zero). -/
def NewConversionStats : ConversionStats :=
  ⟨0, 0, 0, 0, 0, 0, 0, 0, 0⟩

/-- Embeds `Service.checkAVIFResult` (internal/converter/convert.go):
given the `os.Stat` outcome for the `.avif` output and its
re-decodability, update the stats; the returned `Bool` records whether the
output file was removed. -/
def checkAVIFResult (statOk : Bool) (size : Int) (decodable : Bool)
    (stats : ConversionStats) : ConversionStats × Bool :=
  if statOk ∧ size > 0 then
    if decodable then
      ({ stats with avifSuccess := stats.avifSuccess + 1 }, false)
    else
      ({ stats with avifFailed := stats.avifFailed + 1 }, true)
  else if statOk then
    ({ stats with avifFailed := stats.avifFailed + 1 }, true)
  else
    (stats, false)

/-- Embeds `FileProcessor.updateStats` (internal/local/process.go). -/
def updateStats (result : ConversionResult) (s : ConversionStats) :
    ConversionStats :=
  let s1 :=
    if result.webpSuccess then { s with webpSuccess := s.webpSuccess + 1 }
    else if result.webpAttempted then { s with webpFailed := s.webpFailed + 1 }
    else s
  if result.avifSuccess then { s1 with avifSuccess := s1.avifSuccess + 1 }
  else if result.avifAttempted then { s1 with avifFailed := s1.avifFailed + 1 }
  else s1

/-- Embeds the statistics effect of `FileProcessor.processFile`
(internal/local/process.go): `conv` is the outcome of
`converter.Convert` for the file.  On error the function logs, marks the
tracker failed and returns the error without touching the stats; on
success it applies `updateStats` and then increments `TotalProcessed`.
The returned `Bool` is whether the call returned nil. -/
def processFile (conv : Except String ConversionResult)
    (s : ConversionStats) : ConversionStats × Bool :=
  match conv with
  | .error _ => (s, false)
  | .ok result =>
    let s1 := updateStats result s
    ({ s1 with totalProcessed := s1.totalProcessed + 1 }, true)

/-- Outcome of the external calls inside `uploadWebPFile`/`uploadAVIFFile`
(internal/remote/operations.go): the `os.Stat` on the local converted
file, the `imageutils.IsValidFile` check, and the `UploadFile` call. -/
structure UploadEnv where
  statOk : Bool
  valid : Bool
  uploadErr : Bool
deriving Repr, DecidableEq

/-- Embeds `Client.uploadWebPFile`. -/
def uploadWebPFile (webpEnabled : Bool) (u : UploadEnv)
    (s : ConversionStats) : ConversionStats × Bool :=
  if webpEnabled = false then (s, false)
  else if u.statOk then
    if u.valid then
      if u.uploadErr then ({ s with webpFailed := s.webpFailed + 1 }, false)
      else ({ s with webpSuccess := s.webpSuccess + 1
                     uploadedFiles := s.uploadedFiles + 1 }, true)
    else ({ s with webpFailed := s.webpFailed + 1
                   skippedUploads := s.skippedUploads + 1 }, false)
  else (s, false)

/-- Embeds `Client.uploadAVIFFile`. -/
def uploadAVIFFile (avifEnabled : Bool) (u : UploadEnv)
    (s : ConversionStats) : ConversionStats × Bool :=
  if avifEnabled = false then (s, false)
  else if u.statOk then
    if u.valid then
      if u.uploadErr then ({ s with avifFailed := s.avifFailed + 1 }, false)
      else ({ s with avifSuccess := s.avifSuccess + 1
                     uploadedFiles := s.uploadedFiles + 1 }, true)
    else ({ s with avifFailed := s.avifFailed + 1
                   skippedUploads := s.skippedUploads + 1 }, false)
  else (s, false)

/-- Environment for one `Client.ProcessRemoteFile` call: outcome of the
download, of `Service.ConvertImage`, which output files the conversion
step left in the temp directory, the enabled-format flags, and the upload
call outcomes.  (`DownloadFile` removes its own partially-written local
file on failure, so a failed download leaves no source artifact.) -/
structure RemoteFileEnv where
  downloadOk : Bool
  convertOk : Bool
  webpProduced : Bool
  avifProduced : Bool
  webpEnabled : Bool
  avifEnabled : Bool
  webpUpload : UploadEnv
  avifUpload : UploadEnv
deriving Repr, DecidableEq

/-- Embeds the statistics effect and return status of
`Client.ProcessRemoteFile` (internal/remote/operations.go): download,
convert, count, upload both formats.  Returns the updated stats and
whether the call returned nil.  The call's effect on the temporary
directory (including the `cleanupFiles` call on the success path) touches
no counter and is modelled separately by `processRemoteFileArtifacts`
below, at the level of file names. -/
def ProcessRemoteFile (env : RemoteFileEnv) (s : ConversionStats) :
    ConversionStats × Bool :=
  if env.downloadOk = false then
    ({ s with downloadFailed := s.downloadFailed + 1 }, false)
  else if env.convertOk = false then
    ({ s with convertFailed := s.convertFailed + 1 }, false)
  else
    let s1 := { s with totalProcessed := s.totalProcessed + 1 }
    let p1 := uploadWebPFile env.webpEnabled env.webpUpload s1
    let p2 := uploadAVIFFile env.avifEnabled env.avifUpload p1.1
    (p2.1, p1.2 || p2.2)

lemma updateStats_totalProcessed (r : ConversionResult) (s : ConversionStats) :
    (updateStats r s).totalProcessed = s.totalProcessed := by
  unfold updateStats
  split_ifs <;> rfl

lemma uploadWebPFile_totalProcessed (en : Bool) (u : UploadEnv)
    (s : ConversionStats) :
    (uploadWebPFile en u s).1.totalProcessed = s.totalProcessed := by
  unfold uploadWebPFile
  split_ifs <;> rfl

lemma uploadAVIFFile_totalProcessed (en : Bool) (u : UploadEnv)
    (s : ConversionStats) :
    (uploadAVIFFile en u s).1.totalProcessed = s.totalProcessed := by
  unfold uploadAVIFFile
  split_ifs <;> rfl


lemma convertWebPStep_fields (cfg : ConvertConfig) (dir base : String)
    (env : EncodeEnv) (r0 : ConversionResult) :
    let r := convertWebPStep cfg dir base env r0
    (r0.webpSuccess = false → r.webpSuccess = true →
      r.webpAttempted = true ∧ r.webpSize > 0) ∧
    r.avifAttempted = r0.avifAttempted ∧
    r.avifSuccess = r0.avifSuccess ∧
    r.avifSize = r0.avifSize := by
  unfold convertWebPStep
  split_ifs with h1 h2 h3 h4 <;> simp_all

lemma convertAVIFStep_fields (cfg : ConvertConfig) (dir base : String)
    (env : EncodeEnv) (r1 : ConversionResult) :
    let p := convertAVIFStep cfg dir base env r1
    (r1.avifSuccess = false → p.1.avifSuccess = true →
      p.1.avifAttempted = true ∧ p.1.avifSize > 0) ∧
    p.1.webpAttempted = r1.webpAttempted ∧
    p.1.webpSuccess = r1.webpSuccess ∧
    p.1.webpSize = r1.webpSize := by
  unfold convertAVIFStep
  split_ifs with h1 h2 h3 h4 h5 <;> simp_all

/-- C4: every `ConversionResult` returned by `ImageConverter.Convert`
satisfies, for each format: success implies attempted, and success implies
a recorded byte size strictly greater than 0. -/
theorem C4_conversion_result_invariant
    (cfg : ConvertConfig) (fp dir base : String) (decode : Except String Unit)
    (wEnv aEnv : EncodeEnv) (r : ConversionResult) (removed : Bool)
    (heq : ImageConverter.Convert cfg fp dir base decode wEnv aEnv
      = .ok (r, removed)) :
    (r.webpSuccess = true → r.webpAttempted = true) ∧
    (r.webpSuccess = true → r.webpSize > 0) ∧
    (r.avifSuccess = true → r.avifAttempted = true) ∧
    (r.avifSuccess = true → r.avifSize > 0) := by
  cases decode with
  | error e => simp [ImageConverter.Convert] at heq
  | ok u =>
    simp only [ImageConverter.Convert, Except.ok.injEq] at heq
    have hr : (convertAVIFStep cfg dir base aEnv
        (convertWebPStep cfg dir base wEnv (initResult fp))).1 = r :=
      congrArg Prod.fst heq
    subst hr
    have hw := convertWebPStep_fields cfg dir base wEnv (initResult fp)
    have ha := convertAVIFStep_fields cfg dir base aEnv
      (convertWebPStep cfg dir base wEnv (initResult fp))
    simp only at hw ha
    obtain ⟨hw1, hwa, hws, hwz⟩ := hw
    obtain ⟨ha1, haw, has, haz⟩ := ha
    have hinit : (initResult fp).webpSuccess = false := rfl
    have hwebp := hw1 hinit
    refine ⟨?_, ?_, ?_, ?_⟩
    · intro h
      rw [has] at h
      have := hwebp h
      rw [haw]
      exact this.1
    · intro h
      rw [has] at h
      have := hwebp h
      rw [haz]
      exact this.2
    · intro h
      exact (ha1 (by rw [hws]; rfl) h).1
    · intro h
      exact (ha1 (by rw [hws]; rfl) h).2

/-- Witness for C4 at a concrete fully-successful conversion. -/
theorem C4_conversion_result_invariant_witness :
    (⟨"a.jpg", "./a.webp", "./a.avif", true, true, 5, true, true, 7⟩ :
      ConversionResult).webpAttempted = true ∧
    (⟨"a.jpg", "./a.webp", "./a.avif", true, true, 5, true, true, 7⟩ :
      ConversionResult).webpSize > 0 :=
  ⟨(C4_conversion_result_invariant ⟨true, true, false⟩ "a.jpg" "." "a"
      (Except.ok ()) ⟨false, true, 5, true⟩ ⟨false, true, 7, true⟩
      _ false rfl).1 rfl,
   (C4_conversion_result_invariant ⟨true, true, false⟩ "a.jpg" "." "a"
      (Except.ok ()) ⟨false, true, 5, true⟩ ⟨false, true, 7, true⟩
      _ false rfl).2.1 rfl⟩

/-- C10: `ImageConverter.Convert` returns an error exactly when `loadImage`
(decoding) fails; once the decode succeeds it always returns a result,
never an error, whatever the per-format encode outcomes are. -/
theorem C10_convert_error_iff_decode
    (cfg : ConvertConfig) (fp dir base : String) (decode : Except String Unit)
    (wEnv aEnv : EncodeEnv) :
    (∀ e, ImageConverter.Convert cfg fp dir base decode wEnv aEnv = .error e
      ↔ decode = .error e) ∧
    (decode = .ok () →
      ∃ r removed, ImageConverter.Convert cfg fp dir base decode wEnv aEnv
        = .ok (r, removed)) := by
  cases decode with
  | error e =>
    constructor
    · intro e'
      simp [ImageConverter.Convert]
    · intro h
      simp at h
  | ok u =>
    cases u
    constructor
    · intro e'
      simp [ImageConverter.Convert]
    · intro _
      exact ⟨_, _, rfl⟩

/-- Witness for C10 at a concrete decode failure. -/
theorem C10_convert_error_iff_decode_witness :
    (ImageConverter.Convert ⟨true, true, false⟩ "a.jpg" "." "a"
        (Except.error "decode failed") ⟨false, false, 0, false⟩
        ⟨false, false, 0, false⟩ = Except.error "decode failed")
      ↔ ((Except.error "decode failed" : Except String Unit)
          = Except.error "decode failed") :=
  (C10_convert_error_iff_decode ⟨true, true, false⟩ "a.jpg" "." "a"
    (Except.error "decode failed") ⟨false, false, 0, false⟩
    ⟨false, false, 0, false⟩).1 "decode failed"

/-- C3 counterexample: a zero-byte AVIF output (`SaveAVIF` returned no
error, `os.Stat` succeeds with size 0) is counted as a failure but the
`os.Remove` flag is `false`: the zero-byte file is left on disk by
`Convert`, contrary to the claim that such an output is never left
behind. -/
theorem C3_counterexample :
    (ImageConverter.Convert ⟨false, true, false⟩ "b.png" "." "b"
        (Except.ok ()) ⟨false, false, 0, false⟩ ⟨false, true, 0, false⟩).map
        (fun p => (p.1.avifAttempted, p.1.avifSuccess, p.2))
      = Except.ok (true, false, false) := rfl

lemma convertAVIFStep_validation (cfg : ConvertConfig) (dir base : String)
    (env : EncodeEnv) (r1 : ConversionResult)
    (hen : cfg.avifEnabled = true) (hdry : cfg.dryRun = false)
    (hsave : env.saveErr = false) (hstat : env.statOk = true)
    (h1 : r1.avifSuccess = false) :
    ((convertAVIFStep cfg dir base env r1).1.avifSuccess = true
      ↔ (env.size > 0 ∧ env.decodable = true)) ∧
    ((convertAVIFStep cfg dir base env r1).2 = true
      ↔ (env.size > 0 ∧ env.decodable = false)) := by
  unfold convertAVIFStep
  rw [hen, hdry]
  simp only [if_pos rfl, hsave, hstat]
  split_ifs <;> simp_all

/-- C3 (amended): for a real (non-dry-run) AVIF conversion attempt whose
save succeeded and whose output file stats, success is recorded exactly
when the output is non-empty and re-decodable; `Convert` deletes the
output exactly when it is non-empty but not re-decodable — a zero-byte
output is counted as a failure but left on disk by `Convert`.  The
separate `checkAVIFResult` path deletes both zero-byte and non-decodable
outputs and counts them as failures. -/
theorem C3_avif_validation_amended
    (cfg : ConvertConfig) (fp dir base : String) (wEnv aEnv : EncodeEnv)
    (r : ConversionResult) (removed : Bool)
    (hen : cfg.avifEnabled = true) (hdry : cfg.dryRun = false)
    (hsave : aEnv.saveErr = false) (hstat : aEnv.statOk = true)
    (heq : ImageConverter.Convert cfg fp dir base (.ok ()) wEnv aEnv
      = .ok (r, removed)) :
    (r.avifSuccess = true ↔ (aEnv.size > 0 ∧ aEnv.decodable = true)) ∧
    (removed = true ↔ (aEnv.size > 0 ∧ aEnv.decodable = false)) ∧
    (∀ (size : Int) (dec : Bool) (s : ConversionStats),
      ((checkAVIFResult true size dec s).2 = true
        ↔ ¬(size > 0 ∧ dec = true)) ∧
      ((checkAVIFResult true size dec s).1.avifSuccess = s.avifSuccess + 1
        ↔ (size > 0 ∧ dec = true)) ∧
      ((checkAVIFResult true size dec s).1.avifFailed = s.avifFailed + 1
        ↔ ¬(size > 0 ∧ dec = true))) := by
  simp only [ImageConverter.Convert, Except.ok.injEq] at heq
  have hr : (convertAVIFStep cfg dir base aEnv
      (convertWebPStep cfg dir base wEnv (initResult fp))).1 = r :=
    congrArg Prod.fst heq
  have hrem : (convertAVIFStep cfg dir base aEnv
      (convertWebPStep cfg dir base wEnv (initResult fp))).2 = removed :=
    congrArg Prod.snd heq
  subst hr
  subst hrem
  have hws : (convertWebPStep cfg dir base wEnv (initResult fp)).avifSuccess
      = (initResult fp).avifSuccess :=
    (convertWebPStep_fields cfg dir base wEnv (initResult fp)).2.2.1
  have hval := convertAVIFStep_validation cfg dir base aEnv
    (convertWebPStep cfg dir base wEnv (initResult fp))
    hen hdry hsave hstat (by rw [hws]; rfl)
  refine ⟨hval.1, hval.2, ?_⟩
  intro size dec s
  unfold checkAVIFResult
  split_ifs <;> simp_all

/-- Witness for C3 (amended) at a concrete valid AVIF output of size 7. -/
theorem C3_avif_validation_amended_witness :
    ((⟨"a.jpg", "", "./a.avif", false, false, 0, true, true, 7⟩ :
        ConversionResult).avifSuccess = true
      ↔ ((7 : Int) > 0 ∧ true = true)) :=
  (C3_avif_validation_amended ⟨false, true, false⟩ "a.jpg" "." "a"
    ⟨false, false, 0, false⟩ ⟨false, true, 7, true⟩ _ false
    rfl rfl rfl rfl rfl).1

/-- C2 counterexample: a decode failure does NOT increment
`totalProcessed`, in either path.  Locally, `processFile` returns before
`TotalProcessed++` when `Convert` errors; remotely, `ProcessRemoteFile`
returns after `ConvertFailed++` but before `TotalProcessed++` when
`ConvertImage` errors.  Both leave the counter at 0 instead of the claimed
0 + 1. -/
theorem C2_counterexample :
    (processFile (Except.error "decode failed")
        NewConversionStats).1.totalProcessed
      ≠ NewConversionStats.totalProcessed + 1 ∧
    (ProcessRemoteFile
        ⟨true, false, false, false, true, true,
          ⟨false, false, false⟩, ⟨false, false, false⟩⟩
        NewConversionStats).1.totalProcessed
      ≠ NewConversionStats.totalProcessed + 1 := by
  decide

/-- C2 (amended): `totalProcessed` is incremented by exactly 1 for every
file whose decode/convert step succeeds, regardless of per-format or
upload outcomes, in both the local and the remote path; a decode failure
(local) and a download or convert failure (remote) leave `totalProcessed`
unchanged. -/
theorem C2_totalProcessed_amended :
    (∀ (e : String) (s : ConversionStats),
      (processFile (.error e) s).1.totalProcessed = s.totalProcessed) ∧
    (∀ (r : ConversionResult) (s : ConversionStats),
      (processFile (.ok r) s).1.totalProcessed = s.totalProcessed + 1) ∧
    (∀ (env : RemoteFileEnv) (s : ConversionStats),
      env.downloadOk = true → env.convertOk = true →
      (ProcessRemoteFile env s).1.totalProcessed = s.totalProcessed + 1) ∧
    (∀ (env : RemoteFileEnv) (s : ConversionStats),
      env.downloadOk = false ∨ env.convertOk = false →
      (ProcessRemoteFile env s).1.totalProcessed = s.totalProcessed) := by
  refine ⟨fun e s => rfl, ?_, ?_, ?_⟩
  · intro r s
    show (updateStats r s).totalProcessed + 1 = s.totalProcessed + 1
    rw [updateStats_totalProcessed]
  · intro env s h1 h2
    unfold ProcessRemoteFile
    rw [h1, h2]
    simp only [Bool.true_eq_false, if_false]
    rw [uploadAVIFFile_totalProcessed, uploadWebPFile_totalProcessed]
  · intro env s h
    unfold ProcessRemoteFile
    rcases h with h | h
    · rw [h]
      simp
    · rw [h]
      by_cases hd : env.downloadOk = false <;> simp [hd]

/-- Witness for C2 (amended) at a concrete successful remote file. -/
theorem C2_totalProcessed_amended_witness :
    (ProcessRemoteFile
        ⟨true, true, true, true, true, true,
          ⟨true, true, false⟩, ⟨true, true, false⟩⟩
        NewConversionStats).1.totalProcessed
      = NewConversionStats.totalProcessed + 1 :=
  C2_totalProcessed_amended.2.2.1
    ⟨true, true, true, true, true, true,
      ⟨true, true, false⟩, ⟨true, true, false⟩⟩
    NewConversionStats rfl rfl

/- ===================================================================
   Section 4: remote batch orchestrator (Service.processBatches,
   src/unnamed/part_005)
   =================================================================== -/

/-- The fixed batch size (`const batchSize = 10`). -/
def batchSize : Nat := 10

/-- The fixed inter-batch pause in seconds
(`time.Sleep(5 * time.Second)` before every batch with `i > 0`). -/
def interBatchDelay : Nat := 5

/-- The loop of `Service.processBatches`: slice the candidate list into
consecutive `batchSize`-chunks (`imageFiles[i:end]`, stepping `i` by
`batchSize`), pausing before every batch except the first.  `fuel` bounds
the iteration count; `processBatches` supplies `l.length`, which always
suffices since every iteration consumes at least one element.  Returns the
batches in order and the number of inter-batch pauses slept. -/
def processBatchesGo {α : Type} : Nat → List α → Bool → List (List α) × Nat
  | 0, _, _ => ([], 0)
  | fuel + 1, l, first =>
    if l.isEmpty then ([], 0)
    else
      let rest := processBatchesGo fuel (l.drop batchSize) false
      (l.take batchSize :: rest.1, (if first then 0 else 1) + rest.2)

/-- Embeds `Service.processBatches` (batching and pacing only; the
per-file work inside a batch is `ProcessRemoteFile`, modelled above). -/
def processBatches {α : Type} (l : List α) : List (List α) × Nat :=
  processBatchesGo l.length l true

lemma processBatchesGo_spec {α : Type} :
    ∀ (fuel : Nat) (l : List α) (first : Bool), l.length ≤ fuel →
      (processBatchesGo fuel l first).1.flatten = l ∧
      (∀ c ∈ (processBatchesGo fuel l first).1,
        c ≠ [] ∧ c.length ≤ batchSize) ∧
      (∀ c ∈ (processBatchesGo fuel l first).1.dropLast,
        c.length = batchSize) ∧
      (processBatchesGo fuel l first).1.length
        = (l.length + (batchSize - 1)) / batchSize ∧
      (processBatchesGo fuel l first).2
        = (if first then (processBatchesGo fuel l first).1.length - 1
           else (processBatchesGo fuel l first).1.length) := by
  intro fuel
  induction fuel with
  | zero =>
    intro l first hlen
    have : l = [] := List.eq_nil_of_length_eq_zero (by omega)
    subst this
    simp [processBatchesGo, batchSize]
  | succ fuel ih =>
    intro l first hlen
    by_cases hemp : l.isEmpty
    · have : l = [] := List.isEmpty_iff.mp hemp
      subst this
      simp [processBatchesGo, batchSize]
    · have hne : l ≠ [] := fun h => hemp (by simp [h])
      have hpos : 1 ≤ l.length := List.length_pos.mpr hne
      have hdlen : (l.drop batchSize).length = l.length - batchSize :=
        List.length_drop _ _
      have ihx := ih (l.drop batchSize) false
        (by rw [hdlen]; simp only [batchSize]; omega)
      obtain ⟨ih1, ih2, ih3, ih4, ih5⟩ := ihx
      simp only [if_neg Bool.false_ne_true] at ih5
      rw [hdlen] at ih4
      have heq : processBatchesGo (fuel + 1) l first
          = (l.take batchSize :: (processBatchesGo fuel (l.drop batchSize) false).1,
             (if first then 0 else 1)
               + (processBatchesGo fuel (l.drop batchSize) false).2) := by
        simp only [processBatchesGo, hemp]
        rfl
      rw [heq]
      have htake : (l.take batchSize).length = min batchSize l.length :=
        List.length_take _ _
      refine ⟨?_, ?_, ?_, ?_, ?_⟩
      · rw [List.flatten_cons, ih1, List.take_append_drop]
      · intro c hc
        rcases List.mem_cons.mp hc with h | h
        · subst h
          refine ⟨?_, by rw [htake]; omega⟩
          rw [Ne, List.take_eq_nil_iff]
          rintro (h10 | hnil)
          · simp [batchSize] at h10
          · exact hne hnil
        · exact ih2 c h
      · intro c hc
        rcases hrest : (processBatchesGo fuel (l.drop batchSize) false).1
          with _ | ⟨b, bs⟩
        · rw [hrest] at hc
          simp at hc
        · rw [hrest] at hc
          rw [List.dropLast_cons_of_ne_nil (by simp)] at hc
          rcases List.mem_cons.mp hc with h | h
          · subst h
            have hcount : (processBatchesGo fuel (l.drop batchSize) false).1.length
                ≠ 0 := by rw [hrest]; simp
            rw [ih4] at hcount
            rw [htake]
            simp only [batchSize] at hcount ⊢
            omega
          · refine ih3 c ?_
            rw [hrest]
            exact h
      · rw [List.length_cons, ih4]
        simp only [batchSize]
        omega
      · rw [ih5]
        rcases first with _ | _ <;> simp [Nat.add_comm]

/-- C5: `processBatches` partitions the candidate list into consecutive,
non-overlapping chunks in list order — ceil(N/10) batches of size at most
10, all but the last of size exactly 10, whose concatenation is the
original list — and pauses the fixed 5-second inter-batch delay exactly
once before every batch except the first; 25 files give 3 batches of
sizes 10, 10, 5 with exactly 2 pauses. -/
theorem C5_batch_partition {α : Type} (l : List α) :
    (processBatches l).1.flatten = l ∧
    (∀ c ∈ (processBatches l).1, c ≠ [] ∧ c.length ≤ batchSize) ∧
    (∀ c ∈ (processBatches l).1.dropLast, c.length = batchSize) ∧
    (processBatches l).1.length = (l.length + (batchSize - 1)) / batchSize ∧
    (processBatches l).2 = (processBatches l).1.length - 1 ∧
    batchSize = 10 ∧ interBatchDelay = 5 ∧
    (processBatches (List.range 25)).1.map List.length = [10, 10, 5] ∧
    (processBatches (List.range 25)).2 = 2 := by
  have h := processBatchesGo_spec l.length l true (le_refl _)
  obtain ⟨h1, h2, h3, h4, h5⟩ := h
  exact ⟨h1, h2, h3, h4, by simpa using h5, rfl, rfl, by decide, by decide⟩

/-- Witness for C5 at the concrete 25-file list. -/
theorem C5_batch_partition_witness :
    (processBatches (List.range 25)).2
      = (processBatches (List.range 25)).1.length - 1 :=
  (C5_batch_partition (List.range 25)).2.2.2.2.1

/- ===================================================================
   Section 5: configuration (internal/config/config.go)
   =================================================================== -/

/-- A Go string, modelled as its list of Unicode code points. -/
abbrev GoStr := List Nat

/-- Code points of a Lean string literal, for writing concrete inputs. -/
def strCodes (s : String) : GoStr := s.data.map Char.toNat

/-- `strings.ToLower` on one code point (ASCII case mapping; the inputs
relevant to extension handling are ASCII). -/
def toLowerCode (c : Nat) : Nat :=
  if 65 ≤ c ∧ c ≤ 90 then c + 32 else c

/-- `strings.ToLower` on a string. -/
def goToLower (s : GoStr) : GoStr := s.map toLowerCode

/-- The `supportedExtensions` map built by `LoadConfig`: each configured
extension, lowercased, maps to `true` (membership in this list models
membership in the map). -/
def supportedExtensionsMap (cfgExts : List GoStr) : List GoStr :=
  cfgExts.map goToLower

/-- Embeds `config.IsSupportedExtension`:
`supportedExtensions[strings.ToLower(ext)]`. -/
def IsSupportedExtension (cfgExts : List GoStr) (ext : GoStr) : Bool :=
  (supportedExtensionsMap cfgExts).contains (goToLower ext)

/-- The default `Input.SupportedExtensions` from `DefaultConfig`. -/
def defaultSupportedExtensions : List GoStr :=
  [strCodes ".jpg", strCodes ".jpeg", strCodes ".png",
   strCodes ".heic", strCodes ".heif"]

/-- C7 counterexample: with the default configuration (which lists the
extensions in dotted form, e.g. ".jpg"), `IsSupportedExtension` accepts
".JPG" and ".jpg" but rejects the dotless "jpg": the lookup lowercases
but does not normalize the leading dot, so the three spellings are not
equivalent as the claim states. -/
theorem C7_counterexample :
    IsSupportedExtension defaultSupportedExtensions (strCodes ".JPG") = true ∧
    IsSupportedExtension defaultSupportedExtensions (strCodes ".jpg") = true ∧
    IsSupportedExtension defaultSupportedExtensions (strCodes "jpg") = false := by
  decide

lemma toLowerCode_idem (c : Nat) :
    toLowerCode (toLowerCode c) = toLowerCode c := by
  unfold toLowerCode
  split_ifs with h1 h2 <;> first | rfl | omega

lemma goToLower_idem (s : GoStr) :
    goToLower (goToLower s) = goToLower s := by
  show (s.map toLowerCode).map toLowerCode = s.map toLowerCode
  rw [List.map_map]
  exact List.map_congr_left fun c _ => toLowerCode_idem c

/-- C7 (amended): `IsSupportedExtension` is case-insensitive — lowercasing
the queried extension never changes the answer, for any configured
extension list — but it is NOT dot-normalization-insensitive: with the
default dotted configuration, ".JPG" and ".jpg" are accepted while the
dotless "jpg" is rejected. -/
theorem C7_extension_lookup_amended :
    (∀ (cfgExts : List GoStr) (ext : GoStr),
      IsSupportedExtension cfgExts (goToLower ext)
        = IsSupportedExtension cfgExts ext) ∧
    IsSupportedExtension defaultSupportedExtensions (strCodes ".JPG") = true ∧
    IsSupportedExtension defaultSupportedExtensions (strCodes ".jpg") = true ∧
    IsSupportedExtension defaultSupportedExtensions (strCodes "jpg") = false := by
  refine ⟨?_, by decide, by decide, by decide⟩
  intro cfgExts ext
  unfold IsSupportedExtension
  rw [goToLower_idem]

/-- Witness for C7 (amended) at the concrete default configuration. -/
theorem C7_extension_lookup_amended_witness :
    IsSupportedExtension defaultSupportedExtensions
        (goToLower (strCodes ".JPG"))
      = IsSupportedExtension defaultSupportedExtensions (strCodes ".JPG") :=
  C7_extension_lookup_amended.1 defaultSupportedExtensions (strCodes ".JPG")

/- ===================================================================
   Section 5b: remote temp-file cleanup at the level of file names
   (Client.ProcessRemoteFile + cleanupFiles, internal/remote/operations.go)
   =================================================================== -/

/-- `filepath.Ext`: the suffix of the name starting at its final dot
(code 46), empty when the name has no dot. -/
def goExt (s : GoStr) : GoStr :=
  let rev := s.reverse
  let afterDot := rev.takeWhile (fun c => c != 46)
  if afterDot.length = rev.length then [] else 46 :: afterDot.reverse

/-- `strings.TrimSuffix`: drop `suffix` from the end of `s` when it ends
with it, else return `s` unchanged. -/
def goTrimSuffix (s suffix : GoStr) : GoStr :=
  if suffix.isSuffixOf s then s.take (s.length - suffix.length) else s

/-- Embeds `cleanupFiles(localPath, baseName)` acting on the contents of
the file's temp sub-directory (a list of file names):
`os.Remove(localPath)`, then stat-and-remove `baseName+".webp"` and
`baseName+".avif"` — for whatever `baseName` the caller passed. -/
def cleanupFiles (localName baseName : GoStr) (files : List GoStr) :
    List GoStr :=
  let f1 := files.filter (fun n => n != localName)
  let f2 :=
    if f1.contains (baseName ++ strCodes ".webp") then
      f1.filter (fun n => n != baseName ++ strCodes ".webp")
    else f1
  if f2.contains (baseName ++ strCodes ".avif") then
    f2.filter (fun n => n != baseName ++ strCodes ".avif")
  else f2

/-- The temp-directory effect of the `Client.ProcessRemoteFile` call whose
statistics effect is modelled above.  The downloaded source is stored
under the full `baseFileName := filepath.Base(remoteFile)`; the converter
writes its outputs under the extension-stripped base
(`strings.TrimSuffix(filepath.Base(p), filepath.Ext(p))` in
`ConvertImage`); on the success path the source calls
`cleanupFiles(localPath, baseFileName)`, passing the extension-bearing
name.  A failed download leaves nothing (the transport removes its own
partially-written file) and a failed conversion returns before any
cleanup. -/
def processRemoteFileArtifacts (env : RemoteFileEnv) (baseFileName : GoStr) :
    List GoStr :=
  if env.downloadOk = false then []
  else
    let convBase := goTrimSuffix baseFileName (goExt baseFileName)
    let files :=
      [baseFileName]
        ++ (if env.webpProduced then [convBase ++ strCodes ".webp"] else [])
        ++ (if env.avifProduced then [convBase ++ strCodes ".avif"] else [])
    if env.convertOk = false then files
    else cleanupFiles baseFileName baseFileName files

/-- C6: the claimed cleanup does not happen, against the code's own
intent.  For a remote file `photo.jpg` whose download, conversion and
uploads all succeed, `cleanupFiles` receives the extension-bearing base
name and stats `photo.jpg.webp`/`photo.jpg.avif`, while the converter
wrote `photo.webp`/`photo.avif`: only the downloaded source is deleted
and both produced outputs remain in the temporary directory.  When the
conversion fails, the early return skips cleanup entirely and even the
source remains; only a failed download leaves nothing behind. -/
theorem C6_cleanup_bug_eval :
    processRemoteFileArtifacts
        ⟨true, true, true, true, true, true,
          ⟨true, true, false⟩, ⟨true, true, false⟩⟩
        (strCodes "photo.jpg")
      = [strCodes "photo.webp", strCodes "photo.avif"] ∧
    processRemoteFileArtifacts
        ⟨true, false, true, true, true, true,
          ⟨true, true, false⟩, ⟨true, true, false⟩⟩
        (strCodes "photo.jpg")
      = [strCodes "photo.jpg", strCodes "photo.webp",
         strCodes "photo.avif"] ∧
    processRemoteFileArtifacts
        ⟨false, false, false, false, true, true,
          ⟨true, true, false⟩, ⟨true, true, false⟩⟩
        (strCodes "photo.jpg")
      = [] ∧
    [strCodes "photo.webp", strCodes "photo.avif"] ≠ ([] : List GoStr) := by
  decide

/-- The configuration fields adjusted by `validateConfig`. -/
structure AppConfig where
  workers : Int
  webpQuality : Int
  avifQuality : Int
  avifSpeed : Int
  remoteEnabled : Bool
  remoteTimeout : Int
deriving Repr, DecidableEq

/-- Embeds `config.validateConfig`: coerce the worker count up to 1, clamp
WebP quality into [0,100], AVIF quality into [1,63], AVIF speed into
[0,10], and raise a too-small remote timeout to 60 when remote mode is
enabled. -/
def validateConfig (c : AppConfig) : AppConfig :=
  { c with
    workers := if c.workers < 1 then 1 else c.workers
    webpQuality :=
      if c.webpQuality < 0 then 0
      else if c.webpQuality > 100 then 100
      else c.webpQuality
    avifQuality :=
      if c.avifQuality < 1 then 1
      else if c.avifQuality > 63 then 63
      else c.avifQuality
    avifSpeed :=
      if c.avifSpeed < 0 then 0
      else if c.avifSpeed > 10 then 10
      else c.avifSpeed
    remoteTimeout :=
      if c.remoteEnabled ∧ c.remoteTimeout < 60 then 60
      else c.remoteTimeout }

/-- C8: after `validateConfig`, every adjusted value lies in its specified
range — workers ≥ 1 (with any value below 1 coerced to exactly 1), WebP
quality in [0,100], AVIF quality in [1,63], AVIF speed in [0,10] — and
when remote mode is enabled the timeout is at least 60, a configured
timeout below 60 being silently raised to exactly 60. -/
theorem C8_validateConfig_ranges (c : AppConfig) :
    1 ≤ (validateConfig c).workers ∧
    0 ≤ (validateConfig c).webpQuality ∧
    (validateConfig c).webpQuality ≤ 100 ∧
    1 ≤ (validateConfig c).avifQuality ∧
    (validateConfig c).avifQuality ≤ 63 ∧
    0 ≤ (validateConfig c).avifSpeed ∧
    (validateConfig c).avifSpeed ≤ 10 ∧
    ((validateConfig c).remoteEnabled = true →
      60 ≤ (validateConfig c).remoteTimeout) ∧
    (c.workers < 1 → (validateConfig c).workers = 1) ∧
    (c.workers ≥ 1 → (validateConfig c).workers = c.workers) ∧
    (c.remoteEnabled = true → c.remoteTimeout < 60 →
      (validateConfig c).remoteTimeout = 60) ∧
    (validateConfig c).remoteEnabled = c.remoteEnabled := by
  simp only [validateConfig]
  refine ⟨?_, ?_, ?_, ?_, ?_, ?_, ?_, ?_, ?_, ?_, ?_, trivial⟩ <;>
    first
      | (split_ifs <;> omega)
      | (intro h; split_ifs <;> omega)
      | (intro h1 h2; split_ifs <;> simp_all)
      | (intro h; split_ifs <;> simp_all)

/-- Witness for C8 at a concrete out-of-range configuration. -/
theorem C8_validateConfig_ranges_witness :
    1 ≤ (validateConfig ⟨0, -5, 200, 99, true, 10⟩).workers :=
  (C8_validateConfig_ranges ⟨0, -5, 200, 99, true, 10⟩).1

/- ===================================================================
   Section 6: concurrent statistics updates
   (internal/local/process.go: goroutines doing `p.stats.TotalProcessed++`
    on the shared `config.ConversionStats` with no lock or atomic)
   =================================================================== -/

/-- The two halves of the non-atomic Go increment `stats.TotalProcessed++`
as executed by a worker goroutine: load the shared counter into a
register, then store register + 1 back. -/
inductive RaceOp where
  | read : RaceOp
  | write : RaceOp
deriving Repr, DecidableEq

/-- One task's statistics update, as the source compiles it: a read of the
shared counter followed by a write of the incremented value, with no
synchronization between the two. -/
def statsIncrementTask : List RaceOp := [.read, .write]

/-- Interleaving semantics for the shared counter: `sched` names, step by
step, which worker executes its next pending operation; each worker is a
pair of its remaining operations and its local register. -/
def runRace : List Nat → List (List RaceOp × Nat) → Nat → Nat
  | [], _, counter => counter
  | i :: rest, ws, counter =>
    match ws[i]? with
    | none => runRace rest ws counter
    | some (ops, reg) =>
      match ops with
      | [] => runRace rest ws counter
      | .read :: tl => runRace rest (ws.set i (tl, counter)) counter
      | .write :: tl => runRace rest (ws.set i (tl, reg)) (reg + 1)

/-- C9: the shared `ConversionStats` counters are updated by worker
goroutines with plain unsynchronized `++`, so increments can be lost: with
2 workers each incrementing once, the interleaving read0-read1-write0-
write1 ends with the counter at 1 instead of 2, while the sequential
schedule ends at 2.  This falsifies the claim that updates are
synchronized so that no increment is lost under any scheduling
interleaving. -/
theorem C9_unsynchronized_counter_race :
    runRace [0, 1, 0, 1]
        [(statsIncrementTask, 0), (statsIncrementTask, 0)] 0 = 1 ∧
    runRace [0, 0, 1, 1]
        [(statsIncrementTask, 0), (statsIncrementTask, 0)] 0 = 2 ∧
    (1 : Nat) ≠ 2 := by
  decide
